import Mathlib

/-!
# Verification of the CSC148 ride-sharing simulation core

Shallow embedding of the ride-sharing dispatch program:
`location.py`, `rider.py`, `driver.py`, `container.py`, `dispatcher.py`
and `event.py`.  Pure functions become Lean functions; the mutable
object graph (riders and drivers are aliased into the dispatcher's
queues and into events) becomes an explicit `World` record keyed by the
unique identifiers, with events acting as state transformers.

Python's `float` arithmetic in `manhattan_distance`
(`((d) ** 2) ** 0.5`, exact on perfect squares) is modelled by the exact
integer square root `Nat.sqrt`, and `round` (round-half-to-even on the
exact quotient) by `rnd` below.
-/

/-- `location.py`: a grid location with integer coordinates. -/
structure Location where
  row : Int
  column : Int
deriving DecidableEq, Repr

/-- `location.py`, `manhattan_distance`: the source computes
`int((((dest.row - orig.row) ** 2) ** 0.5) + (((dest.column - orig.column) ** 2) ** 0.5))`;
squaring followed by the `0.5` power is the exact square root of a
perfect square, modelled by `Nat.sqrt`, and the final `int` truncation
of the nonnegative integer sum is the identity. -/
def manhattan_distance (origin destination : Location) : Nat :=
  Nat.sqrt ((destination.row - origin.row) ^ 2).toNat +
  Nat.sqrt ((destination.column - origin.column) ^ 2).toNat

/-- Python's `round` on the exact value `n / s` (round half to even),
used by `Driver.get_travel_time`. -/
def rnd (n s : Nat) : Nat :=
  let q := n / s
  let r := n % s
  if 2 * r < s then q
  else if s < 2 * r then q + 1
  else if q % 2 = 0 then q else q + 1

/-- `rider.py`: the three rider status constants. -/
inductive RStatus where
  | waiting
  | cancelled
  | satisfied
deriving DecidableEq, Repr

/-- `rider.py`, class `Rider`. -/
structure Rider where
  identifier : String
  origin : Location
  destination : Location
  patience : Nat
  status : RStatus
deriving DecidableEq, Repr

/-- `driver.py`, class `Driver`.  `speed` carries the source
precondition `speed > 0`; `destination` is `none` when the Python field
is `None`. -/
structure Driver where
  identifier : String
  location : Location
  speed : Nat
  is_idle : Bool
  destination : Option Location
deriving DecidableEq, Repr

/-- `driver.py`, `Driver.get_travel_time`:
`round(manhattan_distance(self.location, destination) / self.speed)`. -/
def get_travel_time (d : Driver) (destination : Location) : Nat :=
  rnd (manhattan_distance d.location destination) d.speed

/-- `driver.py`, `Driver.start_drive`: sets `is_idle = False`,
`destination = location`, returns the travel time. -/
def start_drive (d : Driver) (location : Location) : Driver × Nat :=
  ({ d with is_idle := false, destination := some location },
   get_travel_time d location)

/-- `driver.py`, `Driver.end_drive`: sets `is_idle = True`,
`location = destination`, `destination = None`.  Source precondition:
`self.destination is not None`; outside it we keep the old location. -/
def end_drive (d : Driver) : Driver :=
  { d with is_idle := true, location := d.destination.getD d.location,
           destination := none }

/-- `driver.py`, `Driver.start_ride`: sets `destination =
rider.destination`, sets the rider's status to satisfied, and returns
the travel time to the rider's destination.  (It does not touch
`is_idle`.) -/
def start_ride (d : Driver) (r : Rider) : Driver × Rider × Nat :=
  ({ d with destination := some r.destination },
   { r with status := RStatus.satisfied },
   get_travel_time d r.destination)

/-- `driver.py`, `Driver.end_ride`: same effect as `end_drive`. -/
def end_ride (d : Driver) : Driver :=
  { d with is_idle := true, location := d.destination.getD d.location,
           destination := none }

/-! ## Containers (`container.py`) -/

/-- The error signalled by the `assert not self.is_empty()` guards of
`Queue.remove`, `Queue.first` and `PriorityQueue.remove` (the spec's
`EmptyContainer`). -/
inductive ContainerError where
  | emptyContainer
deriving DecidableEq, Repr

/-- `container.py`, `Queue.remove`: assert non-empty, then pop the
front. -/
def queueRemove {α : Type} : List α → Except ContainerError (α × List α)
  | [] => .error .emptyContainer
  | x :: l => .ok (x, l)

/-- `container.py`, `Queue.first`: assert non-empty, then return (and
keep) the front. -/
def queueFirst {α : Type} : List α → Except ContainerError α
  | [] => .error .emptyContainer
  | x :: _ => .ok x

/-- An item held in the priority queue: `key` is what the rich
comparison methods compare (for events, the timestamp), `tag`
distinguishes distinct items that compare equal. -/
structure PQItem where
  key : Nat
  tag : Nat
deriving DecidableEq, Repr

/-- `container.py`, `PriorityQueue.add`: scan `i` forward while
`self._items[i] <= item`, then `insert(i, item)`. -/
def pqAdd : List PQItem → PQItem → List PQItem
  | [], x => [x]
  | a :: l, x => if a.key ≤ x.key then a :: pqAdd l x else x :: a :: l

/-- `container.py`, `PriorityQueue.remove`: assert non-empty, then
`self._items.pop(0)`. -/
def pqRemove : List PQItem → Except ContainerError (PQItem × List PQItem)
  | [] => .error .emptyContainer
  | x :: l => .ok (x, l)

/-- The representation invariant of `PriorityQueue`: `_items` is a
sorted list. -/
def PQSorted (l : List PQItem) : Prop :=
  l.Pairwise (fun a b => a.key ≤ b.key)

instance : DecidablePred PQSorted := fun l =>
  inferInstanceAs (Decidable (l.Pairwise _))

/-! ## Dispatcher (`dispatcher.py`) -/

/-- `dispatcher.py`: the two pools, `avail_dr` (idle drivers) and
`wait_rd` (waiting riders), both FIFO queues. -/
structure Dispatcher where
  avail_dr : List Driver
  wait_rd : List Rider
deriving DecidableEq, Repr

/-- The `for driver in self.avail_dr` loop of
`Dispatcher.request_driver` case 3: replace the current best only when
the candidate's travel time is strictly smaller. -/
def selectFastest {α : Type} (f : α → Nat) : List α → α → Nat → α × Nat
  | [], best, bt => (best, bt)
  | d :: ds, best, bt =>
    if f d < bt then selectFastest f ds d (f d)
    else selectFastest f ds best bt

/-- `dispatcher.py`, `Dispatcher.request_driver`.  Case 1: no available
driver — enqueue the rider and return `None`.  Case 2: exactly one —
remove and return it.  Case 3: scan all available drivers starting from
the first, keep the strictly fastest, and remove it by value
(`spcl_remove`, i.e. remove the first equal element). -/
def request_driver (disp : Dispatcher) (rider : Rider) :
    Option Driver × Dispatcher :=
  match disp.avail_dr with
  | [] => (none, { disp with wait_rd := disp.wait_rd ++ [rider] })
  | [d] => (some d, { disp with avail_dr := [] })
  | d1 :: d2 :: ds =>
    let l := d1 :: d2 :: ds
    let best :=
      (selectFastest (fun x => get_travel_time x rider.origin) l d1
        (get_travel_time d1 rider.origin)).1
    (some best, { disp with avail_dr := l.erase best })

/-- `dispatcher.py`, `Dispatcher.request_rider`: if no rider waits,
register the driver in `avail_dr` and return `None`; otherwise remove
and return the front (longest-waiting) rider. -/
def request_rider (disp : Dispatcher) (driver : Driver) :
    Option Rider × Dispatcher :=
  match disp.wait_rd with
  | [] => (none, { disp with avail_dr := disp.avail_dr ++ [driver] })
  | r :: rest => (some r, { disp with wait_rd := rest })

/-- `dispatcher.py`, `Dispatcher.cancel_ride`: `spcl_remove` the rider
from `wait_rd` (precondition: the rider is there).  Dead code: no event
ever calls it. -/
def cancel_ride (disp : Dispatcher) (rider : Rider) : Dispatcher :=
  { disp with wait_rd := disp.wait_rd.erase rider }

/-! ## Events as state transformers (`event.py`, `monitor.py`)

Python riders and drivers are mutable objects aliased into the
dispatcher's queues and into events.  The `World` record makes that
object graph explicit: the registries `riders` and `drivers` hold the
live objects keyed by their unique identifier, the dispatcher's two
queues hold identifiers (Python: references into the registries), and
events carry identifiers.  The monitor's notifications are recorded in
an append-only `log`. -/

/-- `monitor.py` constants. -/
def RIDER : String := "rider"

def DRIVER : String := "driver"

def REQUEST : String := "request"

def CANCEL : String := "cancel"

def PICKUP : String := "pickup"

def DROPOFF : String := "dropoff"

/-- `monitor.py`, class `Activity` (with the category under which the
monitor files it). -/
structure Activity where
  time : Nat
  description : String
  id : String
  location : Location
  category : String
deriving DecidableEq, Repr

/-- The explicit object graph: entity registries, the dispatcher's two
queues (as identifier lists), and the monitor's log. -/
structure World where
  riders : List Rider
  drivers : List Driver
  availDr : List String
  waitRd : List String
  log : List Activity
deriving DecidableEq, Repr

/-- Look up the first element with the given identifier. -/
def findBy {α : Type} (ident : α → String) : List α → String → Option α
  | [], _ => none
  | x :: xs, k => if ident x = k then some x else findBy ident xs k

/-- Replace the first element with the given identifier (Python:
mutation of the aliased object seen by every holder of a reference). -/
def updBy {α : Type} (ident : α → String) (k : String) (f : α → α) :
    List α → List α
  | [] => []
  | x :: xs => if ident x = k then f x :: xs else x :: updBy ident k f xs

def getRider (w : World) (rid : String) : Option Rider :=
  findBy Rider.identifier w.riders rid

def getDriver (w : World) (did : String) : Option Driver :=
  findBy Driver.identifier w.drivers did

def setRider (w : World) (rid : String) (f : Rider → Rider) : World :=
  { w with riders := updBy Rider.identifier rid f w.riders }

def setDriver (w : World) (did : String) (f : Driver → Driver) : World :=
  { w with drivers := updBy Driver.identifier did f w.drivers }

def riderStatus (w : World) (rid : String) : Option RStatus :=
  (getRider w rid).map Rider.status

/-- `monitor.py`, `Monitor.notify`: append an activity record. -/
def notify (w : World) (t : Nat) (category description ident : String)
    (loc : Location) : World :=
  { w with log := w.log ++ [⟨t, description, ident, loc, category⟩] }

/-- `event.py`: the five concrete event kinds, carrying their timestamp
and the identifiers of the actors they reference. -/
inductive Ev where
  | riderRequest (t : Nat) (rid : String)
  | driverRequest (t : Nat) (did : String)
  | cancellation (t : Nat) (rid : String)
  | pickup (t : Nat) (rid did : String)
  | dropoff (t : Nat) (rid did : String)
deriving DecidableEq, Repr

/-- `Dispatcher.request_driver` acting on the world (queues hold
identifiers; travel times are read through the registry).  Identifiers
are unique, so Python's remove-by-object-equality is remove-first-by-
identifier. -/
def worldRequestDriver (w : World) (r : Rider) : Option String × World :=
  match w.availDr with
  | [] => (none, { w with waitRd := w.waitRd ++ [r.identifier] })
  | [did] => (some did, { w with availDr := [] })
  | did1 :: did2 :: rest =>
    let ids := did1 :: did2 :: rest
    let f := fun did =>
      match findBy Driver.identifier w.drivers did with
      | some d => get_travel_time d r.origin
      | none => 0
    let best := (selectFastest f ids did1 (f did1)).1
    (some best, { w with availDr := ids.erase best })

/-- `Dispatcher.request_rider` acting on the world. -/
def worldRequestRider (w : World) (d : Driver) : Option String × World :=
  match w.waitRd with
  | [] => (none, { w with availDr := w.availDr ++ [d.identifier] })
  | rid :: rest => (some rid, { w with waitRd := rest })

/-- `event.py`, `RiderRequest.do`: notify, ask the dispatcher for a
driver; if one is found it starts driving to the rider and a `Pickup`
is scheduled at `t + travel_time`; a `Cancellation` at
`t + rider.patience` is always scheduled. -/
def riderRequest_do (t : Nat) (rid : String) (w : World) :
    World × Option (List Ev) :=
  match getRider w rid with
  | none => (w, some [])
  | some r =>
    let w1 := notify w t RIDER REQUEST rid r.origin
    match worldRequestDriver w1 r with
    | (some did, w2) =>
      match getDriver w2 did with
      | some d =>
        let w3 := setDriver w2 did (fun _ => (start_drive d r.origin).1)
        (w3, some [Ev.pickup (t + (start_drive d r.origin).2) rid did,
                   Ev.cancellation (t + r.patience) rid])
      | none => (w2, some [Ev.cancellation (t + r.patience) rid])
    | (none, w2) => (w2, some [Ev.cancellation (t + r.patience) rid])

/-- `event.py`, `DriverRequest.do`: notify, ask the dispatcher for a
rider; if one is found the driver starts driving to the rider and a
`Pickup` is scheduled at `t + travel_time`. -/
def driverRequest_do (t : Nat) (did : String) (w : World) :
    World × Option (List Ev) :=
  match getDriver w did with
  | none => (w, some [])
  | some d =>
    let w1 := notify w t DRIVER REQUEST did d.location
    match worldRequestRider w1 d with
    | (some rid, w2) =>
      match getRider w2 rid with
      | some r =>
        let w3 := setDriver w2 did (fun _ => (start_drive d r.origin).1)
        (w3, some [Ev.pickup (t + (start_drive d r.origin).2) rid did])
      | none => (w2, some [])
    | (none, w2) => (w2, some [])

/-- `event.py`, `Cancellation.do`: notify; if the rider's status is
still waiting, set it to cancelled.  The method has no `return`
statement — Python returns `None`, modelled by the `none` in the second
component (the other four `do` methods return a list). -/
def cancellation_do (t : Nat) (rid : String) (w : World) :
    World × Option (List Ev) :=
  match getRider w rid with
  | none => (w, none)
  | some r =>
    let w1 := notify w t RIDER CANCEL rid r.origin
    if r.status = RStatus.waiting then
      (setRider w1 rid (fun r0 => { r0 with status := RStatus.cancelled }),
       none)
    else (w1, none)

/-- `event.py`, `Pickup.do`: notify driver (at its destination) and
rider (at its origin), `end_drive`; if the rider still waits,
`start_ride` and schedule a `Dropoff` at `t + travel_time`; if the
rider cancelled, schedule a `DriverRequest` at the same `t`; otherwise
nothing is scheduled. -/
def pickup_do (t : Nat) (rid did : String) (w : World) :
    World × Option (List Ev) :=
  match getRider w rid, getDriver w did with
  | some r, some d =>
    let w1 := notify w t DRIVER PICKUP did (d.destination.getD d.location)
    let w2 := notify w1 t RIDER PICKUP rid r.origin
    let d1 := end_drive d
    let w3 := setDriver w2 did (fun _ => d1)
    if r.status = RStatus.waiting then
      let w4 := setDriver w3 did (fun _ => (start_ride d1 r).1)
      let w5 := setRider w4 rid (fun _ => (start_ride d1 r).2.1)
      (w5, some [Ev.dropoff (t + (start_ride d1 r).2.2) rid did])
    else if r.status = RStatus.cancelled then
      (w3, some [Ev.driverRequest t did])
    else (w3, some [])
  | _, _ => (w, some [])

/-- `event.py`, `Dropoff.do`: notify the driver at its destination,
`end_ride`, and schedule an immediate `DriverRequest`.  (The event's
rider is not consulted.) -/
def dropoff_do (t : Nat) (_rid did : String) (w : World) :
    World × Option (List Ev) :=
  match getDriver w did with
  | none => (w, some [])
  | some d =>
    let w1 := notify w t DRIVER DROPOFF did (d.destination.getD d.location)
    let w2 := setDriver w1 did (fun _ => end_ride d)
    (w2, some [Ev.driverRequest t did])

/-- Dispatch on the event kind (`Event.do`). -/
def execDo : Ev → World → World × Option (List Ev)
  | .riderRequest t rid, w => riderRequest_do t rid w
  | .driverRequest t did, w => driverRequest_do t did w
  | .cancellation t rid, w => cancellation_do t rid w
  | .pickup t rid did, w => pickup_do t rid did w
  | .dropoff t rid did, w => dropoff_do t rid did w

/-! ## Concrete actors and worlds used in witnesses and tests -/

/-- The idle pool of the spec's nearest-match test: Charles at (0,0)
with speed 3 and Bunny at (10,10) with speed 2. -/
def charles : Driver := ⟨"Charles", ⟨0, 0⟩, 3, true, none⟩

def bunny : Driver := ⟨"Bunny", ⟨10, 10⟩, 2, true, none⟩

def lola : Rider := ⟨"Lola", ⟨0, 0⟩, ⟨5, 4⟩, 100, RStatus.waiting⟩

def godzilla : Rider := ⟨"Godzilla", ⟨10, 10⟩, ⟨7, 1⟩, 10, RStatus.waiting⟩

/-- A rider with patience 5 who will find no driver, and the world in
which they request a ride at `t = 0` with no drivers registered. -/
def lia : Rider := ⟨"L", ⟨0, 0⟩, ⟨5, 4⟩, 5, RStatus.waiting⟩

def w0 : World := ⟨[lia], [], [], [], []⟩

/-- A rider already satisfied and a driver en route to them, for the
`Pickup`-on-a-satisfied-rider probe. -/
def satRider : Rider := ⟨"R", ⟨0, 0⟩, ⟨5, 4⟩, 100, RStatus.satisfied⟩

def enRoute : Driver := ⟨"D", ⟨3, 3⟩, 1, false, some ⟨0, 0⟩⟩

def wSat : World := ⟨[satRider], [enRoute], [], [], []⟩

/-- A waiting rider with a driver en route, for the happy-path pickup
witnesses. -/
def waitRider : Rider := ⟨"W", ⟨0, 0⟩, ⟨2, 1⟩, 100, RStatus.waiting⟩

def wWait : World := ⟨[waitRider], [enRoute], [], [], []⟩

/-- A cancelled rider with a driver en route, for the
pickup-after-cancellation witnesses. -/
def cancRider : Rider := ⟨"C", ⟨0, 0⟩, ⟨2, 1⟩, 100, RStatus.cancelled⟩

def wCanc : World := ⟨[cancRider], [enRoute], [], [], []⟩

/-! ## C9: Manhattan distance -/

lemma sqrt_sq_toNat (z : Int) : Nat.sqrt ((z ^ 2).toNat) = z.natAbs := by
  have h : (z ^ 2).toNat = z.natAbs ^ 2 := by
    have h2 : (z : Int) ^ 2 = ((z.natAbs ^ 2 : Nat) : Int) := by
      push_cast
      rw [sq_abs]
    rw [h2, Int.toNat_natCast]
  rw [h, Nat.sqrt_eq']

/-- C9: for every pair of locations with integer components,
`manhattan_distance A B` is exactly `|A.row − B.row| + |A.column −
B.column|`. -/
theorem manhattan_distance_exact (A B : Location) :
    manhattan_distance A B =
      (A.row - B.row).natAbs + (A.column - B.column).natAbs := by
  unfold manhattan_distance
  rw [sqrt_sq_toNat, sqrt_sq_toNat, ← Int.natAbs_neg (B.row - A.row),
    neg_sub, ← Int.natAbs_neg (B.column - A.column), neg_sub]

example : manhattan_distance ⟨10, 10⟩ ⟨13, 24⟩ = 17 := by
  unfold manhattan_distance
  rw [sqrt_sq_toNat, sqrt_sq_toNat]
  decide

example : manhattan_distance ⟨1, 1⟩ ⟨13, 24⟩ = 35 := by
  unfold manhattan_distance
  rw [sqrt_sq_toNat, sqrt_sq_toNat]
  decide

/-- Evaluation lemma for the travel time, used to check concrete
doctest values. -/
lemma get_travel_time_eval (d : Driver) (dest : Location) :
    get_travel_time d dest =
      rnd ((d.location.row - dest.row).natAbs +
           (d.location.column - dest.column).natAbs) d.speed := by
  unfold get_travel_time manhattan_distance
  rw [sqrt_sq_toNat, sqrt_sq_toNat, ← Int.natAbs_neg (dest.row - d.location.row),
    neg_sub, ← Int.natAbs_neg (dest.column - d.location.column), neg_sub]

-- `driver.py` doctests: Charles at (0,0) speed 3 to (5,6) takes 4;
-- Bunny at (10,10) speed 2 to (0,0) takes 10.
example : get_travel_time ⟨"Charles", ⟨0, 0⟩, 3, true, none⟩ ⟨5, 6⟩ = 4 := by
  rw [get_travel_time_eval]; decide
example : get_travel_time ⟨"Bunny", ⟨10, 10⟩, 2, true, none⟩ ⟨0, 0⟩ = 10 := by
  rw [get_travel_time_eval]; decide

/-! ## C5: priority queue ordering and FIFO tie-break -/

lemma pqAdd_decomp (x : PQItem) :
    ∀ l : List PQItem, PQSorted l →
      ∃ u v, l = u ++ v ∧ pqAdd l x = u ++ x :: v ∧
        (∀ y ∈ u, y.key ≤ x.key) ∧ (∀ y ∈ v, x.key < y.key) := by
  intro l
  induction l with
  | nil => exact fun _ => ⟨[], [], rfl, rfl, by simp, by simp⟩
  | cons a l ih =>
    intro hs
    rw [PQSorted, List.pairwise_cons] at hs
    by_cases h : a.key ≤ x.key
    · obtain ⟨u, v, hl, hadd, hu, hv⟩ := ih hs.2
      refine ⟨a :: u, v, by simp [hl], ?_, ?_, hv⟩
      · simp only [pqAdd, if_pos h, hadd, List.cons_append]
      · intro y hy
        rcases List.mem_cons.1 hy with rfl | hy
        · exact h
        · exact hu y hy
    · refine ⟨[], a :: l, rfl, by simp only [pqAdd, if_neg h, List.nil_append], by simp, ?_⟩
      intro y hy
      rcases List.mem_cons.1 hy with rfl | hy
      · exact Nat.lt_of_not_le h
      · exact Nat.lt_of_lt_of_le (Nat.lt_of_not_le h) (hs.1 y hy)

lemma pqAdd_append (b : PQItem) :
    ∀ u w : List PQItem, (∀ y ∈ u, y.key ≤ b.key) →
      pqAdd (u ++ w) b = u ++ pqAdd w b := by
  intro u
  induction u with
  | nil => simp
  | cons a u ih =>
    intro w hu
    have ha : a.key ≤ b.key := hu a (by simp)
    simp only [List.cons_append, pqAdd, List.append_eq, if_pos ha,
      ih w (fun y hy => hu y (by simp [hy]))]

lemma pqAdd_front (b : PQItem) (v : List PQItem)
    (hv : ∀ y ∈ v, b.key < y.key) : pqAdd v b = b :: v := by
  cases v with
  | nil => rfl
  | cons c v =>
    have : ¬ c.key ≤ b.key := Nat.not_le_of_lt (hv c (by simp))
    simp only [pqAdd, if_neg this]

/-- C5: on a priority queue satisfying the representation invariant,
`add` inserts the item after all currently-held items that compare
`≤` it, `remove` returns the minimum, and two items that compare equal
come out in insertion order (the earlier-added one sits directly in
front of the later one, so it is removed first). -/
theorem priority_queue_fifo (l : List PQItem) (x a b : PQItem)
    (hs : PQSorted l) (hab : a.key = b.key) :
    (∃ u v, l = u ++ v ∧ pqAdd l x = u ++ x :: v ∧
      (∀ y ∈ u, y.key ≤ x.key) ∧ (∀ y ∈ v, x.key < y.key))
  ∧ (∀ m rest, l = m :: rest →
      pqRemove l = .ok (m, rest) ∧ ∀ y ∈ l, m.key ≤ y.key)
  ∧ (∃ u v, pqAdd l a = u ++ a :: v ∧
      pqAdd (pqAdd l a) b = u ++ a :: b :: v) := by
  refine ⟨pqAdd_decomp x l hs, ?_, ?_⟩
  · intro m rest hl
    subst hl
    refine ⟨rfl, ?_⟩
    rw [PQSorted, List.pairwise_cons] at hs
    intro y hy
    rcases List.mem_cons.1 hy with rfl | hy
    · exact Nat.le_refl _
    · exact hs.1 y hy
  · obtain ⟨u, v, _, hadd, hu, hv⟩ := pqAdd_decomp a l hs
    refine ⟨u, v, hadd, ?_⟩
    rw [hadd, pqAdd_append b u (a :: v) (fun y hy => hab ▸ hu y hy)]
    have hb : a.key ≤ b.key := Nat.le_of_eq hab
    simp only [pqAdd, if_pos hb]
    rw [pqAdd_front b v (fun y hy => hab ▸ hv y hy)]

/-- Witness for C5 at a concrete sorted queue, with tied items
`⟨2,1⟩` (added first) and `⟨2,2⟩` (added second). -/
theorem priority_queue_fifo_witness :
    PQSorted [⟨1, 0⟩, ⟨3, 0⟩] ∧ (PQItem.mk 2 1).key = (PQItem.mk 2 2).key ∧
    ((∃ u v, [⟨1, 0⟩, ⟨3, 0⟩] = u ++ v ∧
        pqAdd [⟨1, 0⟩, ⟨3, 0⟩] ⟨2, 7⟩ = u ++ ⟨2, 7⟩ :: v ∧
        (∀ y ∈ u, y.key ≤ (PQItem.mk 2 7).key) ∧
        (∀ y ∈ v, (PQItem.mk 2 7).key < y.key))
    ∧ (∀ m rest, [(⟨1, 0⟩ : PQItem), ⟨3, 0⟩] = m :: rest →
        pqRemove [⟨1, 0⟩, ⟨3, 0⟩] = .ok (m, rest) ∧
        ∀ y ∈ [(⟨1, 0⟩ : PQItem), ⟨3, 0⟩], m.key ≤ y.key)
    ∧ (∃ u v, pqAdd [⟨1, 0⟩, ⟨3, 0⟩] ⟨2, 1⟩ = u ++ ⟨2, 1⟩ :: v ∧
        pqAdd (pqAdd [⟨1, 0⟩, ⟨3, 0⟩] ⟨2, 1⟩) ⟨2, 2⟩ =
          u ++ ⟨2, 1⟩ :: ⟨2, 2⟩ :: v)) :=
  ⟨by decide, by decide,
   priority_queue_fifo [⟨1, 0⟩, ⟨3, 0⟩] ⟨2, 7⟩ ⟨2, 1⟩ ⟨2, 2⟩
     (by decide) (by decide)⟩

-- `container.py` doctest: adding "red"(3) "blue"(1) "yellow"(4)
-- "green"(2) by key order removes blue, green, red, yellow.
example :
    pqAdd (pqAdd (pqAdd (pqAdd [] ⟨3, 0⟩) ⟨1, 1⟩) ⟨4, 2⟩) ⟨2, 3⟩ =
      [⟨1, 1⟩, ⟨2, 3⟩, ⟨3, 0⟩, ⟨4, 2⟩] := by decide

/-! ## C8: empty-container errors -/

/-- C8: `remove` on an empty FIFO queue or priority queue and `first`
on an empty FIFO queue fail with `EmptyContainer`; on non-empty
containers each returns a value. -/
theorem empty_container_errors {α : Type} (l : List α) (pl : List PQItem)
    (hl : l ≠ []) (hpl : pl ≠ []) :
    queueRemove ([] : List α) = .error .emptyContainer
  ∧ queueFirst ([] : List α) = .error .emptyContainer
  ∧ pqRemove ([] : List PQItem) = .error .emptyContainer
  ∧ (∃ x rest, queueRemove l = .ok (x, rest))
  ∧ (∃ x, queueFirst l = .ok x)
  ∧ (∃ p rest, pqRemove pl = .ok (p, rest)) := by
  refine ⟨rfl, rfl, rfl, ?_, ?_, ?_⟩
  · cases l with
    | nil => exact absurd rfl hl
    | cons x rest => exact ⟨x, rest, rfl⟩
  · cases l with
    | nil => exact absurd rfl hl
    | cons x rest => exact ⟨x, rfl⟩
  · cases pl with
    | nil => exact absurd rfl hpl
    | cons p rest => exact ⟨p, rest, rfl⟩

/-- Witness for C8 at concrete non-empty containers. -/
theorem empty_container_errors_witness :
    ([7] : List Nat) ≠ [] ∧ ([⟨0, 0⟩] : List PQItem) ≠ [] ∧
    (queueRemove ([] : List Nat) = .error .emptyContainer
  ∧ queueFirst ([] : List Nat) = .error .emptyContainer
  ∧ pqRemove ([] : List PQItem) = .error .emptyContainer
  ∧ (∃ x rest, queueRemove [7] = .ok (x, rest))
  ∧ (∃ x, queueFirst [7] = .ok x)
  ∧ (∃ p rest, pqRemove [⟨0, 0⟩] = .ok (p, rest))) :=
  ⟨by decide, by decide,
   empty_container_errors [7] [⟨0, 0⟩] (by decide) (by decide)⟩

/-! ## C1: `Dispatcher.request_driver` -/

/-- The scan of case 3 returns the first-encountered element attaining
the strictly smallest value of `f`, starting from `best` (the front of
the idle pool): either nothing beats `best`, or the result sits in the
scanned list with every earlier element strictly slower and every later
element no faster. -/
lemma selectFastest_spec {α : Type} (f : α → Nat) :
    ∀ (l : List α) (best : α),
      ((selectFastest f l best (f best)).1 = best ∧
        ∀ x ∈ l, f best ≤ f x)
    ∨ (∃ u v, l = u ++ (selectFastest f l best (f best)).1 :: v ∧
        f (selectFastest f l best (f best)).1 < f best ∧
        (∀ x ∈ u, f (selectFastest f l best (f best)).1 < f x) ∧
        (∀ x ∈ v, f (selectFastest f l best (f best)).1 ≤ f x)) := by
  intro l
  induction l with
  | nil => exact fun best => Or.inl ⟨rfl, by simp⟩
  | cons d ds ih =>
    intro best
    by_cases h : f d < f best
    · have hred : selectFastest f (d :: ds) best (f best) =
          selectFastest f ds d (f d) := by
        simp only [selectFastest, if_pos h]
      rcases ih d with ⟨h1, h2⟩ | ⟨u, v, hl, hlt, hu, hv⟩
      · refine Or.inr ⟨[], ds, ?_, ?_, by simp, ?_⟩
        · simp [hred, h1]
        · rw [hred, h1]; exact h
        · intro x hx; rw [hred, h1]; exact h2 x hx
      · refine Or.inr ⟨d :: u, v, ?_, ?_, ?_, ?_⟩
        · rw [hred, List.cons_append, ← hl]
        · rw [hred]; exact Nat.lt_trans hlt h
        · intro x hx
          rcases List.mem_cons.1 hx with rfl | hx
          · rw [hred]; exact hlt
          · rw [hred]; exact hu x hx
        · intro x hx; rw [hred]; exact hv x hx
    · have hred : selectFastest f (d :: ds) best (f best) =
          selectFastest f ds best (f best) := by
        simp only [selectFastest, if_neg h]
      rcases ih best with ⟨h1, h2⟩ | ⟨u, v, hl, hlt, hu, hv⟩
      · refine Or.inl ⟨by rw [hred, h1], ?_⟩
        intro x hx
        rcases List.mem_cons.1 hx with rfl | hx
        · exact Nat.le_of_not_lt h
        · exact h2 x hx
      · refine Or.inr ⟨d :: u, v, ?_, ?_, ?_, ?_⟩
        · rw [hred, List.cons_append, ← hl]
        · rw [hred]; exact hlt
        · intro x hx
          rcases List.mem_cons.1 hx with rfl | hx
          · rw [hred]
            exact Nat.lt_of_lt_of_le hlt (Nat.le_of_not_lt h)
          · rw [hred]; exact hu x hx
        · intro x hx; rw [hred]; exact hv x hx

/-- C1: `request_driver` enqueues the rider and returns `none` when no
driver is idle; removes and returns the sole idle driver when there is
exactly one; and with two or more idle drivers returns the one whose
travel time `round(manhattan_distance(driver.location, rider.origin) /
driver.speed)` is strictly smallest — every driver earlier in insertion
order is strictly slower (ties keep the first-encountered driver) and
every later driver is no faster — removing it from the pool by value
(`List.erase`, the first equal element). -/
theorem request_driver_spec (disp : Dispatcher) (rider : Rider) :
    (disp.avail_dr = [] →
      request_driver disp rider =
        (none, { disp with wait_rd := disp.wait_rd ++ [rider] }))
  ∧ (∀ d, disp.avail_dr = [d] →
      request_driver disp rider = (some d, { disp with avail_dr := [] }))
  ∧ (2 ≤ disp.avail_dr.length →
      ∃ b u v,
        request_driver disp rider =
          (some b, { disp with avail_dr := disp.avail_dr.erase b }) ∧
        disp.avail_dr = u ++ b :: v ∧
        (∀ x ∈ u, get_travel_time b rider.origin < get_travel_time x rider.origin) ∧
        (∀ x ∈ v, get_travel_time b rider.origin ≤ get_travel_time x rider.origin)) := by
  obtain ⟨avail, wait⟩ := disp
  refine ⟨?_, ?_, ?_⟩
  · intro h
    cases h
    rfl
  · intro d h
    cases h
    rfl
  · intro hlen
    cases avail with
    | nil => simp at hlen
    | cons d1 rest =>
      cases rest with
      | nil => simp at hlen
      | cons d2 ds =>
        set f := fun x => get_travel_time x rider.origin with hf
        set b := (selectFastest f (d1 :: d2 :: ds) d1 (f d1)).1 with hb
        have hreq : request_driver ⟨d1 :: d2 :: ds, wait⟩ rider =
            (some b, ⟨(d1 :: d2 :: ds).erase b, wait⟩) := rfl
        rcases selectFastest_spec f (d1 :: d2 :: ds) d1 with
          ⟨h1, h2⟩ | ⟨u, v, hl, _, hu, hv⟩
        · have hbd : b = d1 := hb.trans h1
          refine ⟨b, [], d2 :: ds, hreq, ?_, by simp, ?_⟩
          · rw [hbd, List.nil_append]
          · intro x hx
            rw [hbd]
            exact h2 x (List.mem_cons_of_mem d1 hx)
        · exact ⟨b, u, v, hreq, hl, hu, hv⟩

/-- Witness for C1 on the spec's nearest-match pool: two idle drivers,
so case 3 applies. -/
theorem request_driver_spec_witness :
    2 ≤ (Dispatcher.mk [charles, bunny] []).avail_dr.length ∧
    (∃ b u v,
      request_driver ⟨[charles, bunny], []⟩ lola =
        (some b,
         { Dispatcher.mk [charles, bunny] [] with
             avail_dr := (Dispatcher.mk [charles, bunny] []).avail_dr.erase b }) ∧
      (Dispatcher.mk [charles, bunny] []).avail_dr = u ++ b :: v ∧
      (∀ x ∈ u, get_travel_time b lola.origin < get_travel_time x lola.origin) ∧
      (∀ x ∈ v, get_travel_time b lola.origin ≤ get_travel_time x lola.origin)) :=
  ⟨by decide,
   (request_driver_spec ⟨[charles, bunny], []⟩ lola).2.2 (by decide)⟩

-- The spec's nearest-match test, evaluated: the speed-3 driver at the
-- rider's own location wins (travel time 0 against 10) and the speed-2
-- driver stays idle.
example :
    request_driver ⟨[charles, bunny], []⟩ lola =
      (some charles, ⟨[bunny], []⟩) := by
  simp only [request_driver, selectFastest, get_travel_time_eval,
    charles, bunny, lola]
  decide

/-! ## C6: `Dispatcher.request_rider` -/

/-- C6: `request_rider` registers the driver in the idle pool and
returns `none` when no rider waits; otherwise it removes and returns
the front of the waiting queue — the longest-waiting rider. -/
theorem request_rider_spec (disp : Dispatcher) (driver : Driver) :
    (disp.wait_rd = [] →
      request_rider disp driver =
        (none, { disp with avail_dr := disp.avail_dr ++ [driver] }))
  ∧ (∀ r1 rest, disp.wait_rd = r1 :: rest →
      request_rider disp driver = (some r1, { disp with wait_rd := rest })) := by
  obtain ⟨avail, wait⟩ := disp
  refine ⟨?_, ?_⟩
  · intro h
    cases h
    rfl
  · intro r1 rest h
    cases h
    rfl

/-- Witness for C6: with riders Lola (enqueued first) and Godzilla both
waiting, `request_rider` returns Lola. -/
theorem request_rider_spec_witness :
    (Dispatcher.mk [] [lola, godzilla]).wait_rd = lola :: [godzilla] ∧
    request_rider ⟨[], [lola, godzilla]⟩ charles =
      (some lola, { Dispatcher.mk [] [lola, godzilla] with wait_rd := [godzilla] }) :=
  ⟨rfl,
   (request_rider_spec ⟨[], [lola, godzilla]⟩ charles).2 lola [godzilla] rfl⟩

/-! ## World-model lemmas -/

lemma findBy_eq_ident {α : Type} (ident : α → String) (k : String) (x : α) :
    ∀ l, findBy ident l k = some x → ident x = k := by
  intro l
  induction l with
  | nil => intro h; exact absurd h (by simp [findBy])
  | cons y ys ih =>
    intro h
    by_cases hy : ident y = k
    · rw [findBy, if_pos hy] at h
      cases h
      exact hy
    · rw [findBy, if_neg hy] at h
      exact ih h

lemma findBy_updBy {α : Type} (ident : α → String) (k k' : String) (f : α → α)
    (hf : ∀ x, ident x = k' → ident (f x) = ident x) :
    ∀ l, findBy ident (updBy ident k' f l) k =
      if k = k' then (findBy ident l k).map f else findBy ident l k := by
  intro l
  induction l with
  | nil =>
    simp only [updBy, findBy]
    split <;> rfl
  | cons x xs ih =>
    by_cases h1 : ident x = k'
    · by_cases h2 : k = k'
      · subst h2
        simp [updBy, findBy, h1, hf x h1]
      · have h2' : k' ≠ k := fun hh => h2 hh.symm
        simp [updBy, findBy, h1, h2, hf x h1, h2']
    · by_cases h2 : k = k'
      · subst h2
        simp [updBy, findBy, h1, ih]
      · simp [updBy, findBy, h1, h2, ih]

lemma getRider_notify (w : World) (t : Nat) (c ds i : String) (loc : Location)
    (rid : String) : getRider (notify w t c ds i loc) rid = getRider w rid := rfl

lemma getDriver_notify (w : World) (t : Nat) (c ds i : String) (loc : Location)
    (did : String) : getDriver (notify w t c ds i loc) did = getDriver w did := rfl

lemma getRider_setDriver (w : World) (did : String) (f : Driver → Driver)
    (rid : String) : getRider (setDriver w did f) rid = getRider w rid := rfl

lemma getDriver_setRider (w : World) (rid : String) (f : Rider → Rider)
    (did : String) : getDriver (setRider w rid f) did = getDriver w did := rfl

lemma getRider_setRider (w : World) (rid rid' : String) (f : Rider → Rider)
    (hf : ∀ r, r.identifier = rid' → (f r).identifier = r.identifier) :
    getRider (setRider w rid' f) rid =
      if rid = rid' then (getRider w rid).map f else getRider w rid :=
  findBy_updBy Rider.identifier rid rid' f hf w.riders

lemma getDriver_setDriver (w : World) (did did' : String) (f : Driver → Driver)
    (hf : ∀ d, d.identifier = did' → (f d).identifier = d.identifier) :
    getDriver (setDriver w did' f) did =
      if did = did' then (getDriver w did).map f else getDriver w did :=
  findBy_updBy Driver.identifier did did' f hf w.drivers

lemma riderStatus_eq_of_riders (w1 w2 : World) (rid : String)
    (h : w1.riders = w2.riders) : riderStatus w1 rid = riderStatus w2 rid := by
  rw [riderStatus, riderStatus, getRider, getRider, h]

lemma worldRequestDriver_riders (w : World) (r : Rider) :
    ((worldRequestDriver w r).2).riders = w.riders := by
  unfold worldRequestDriver
  split <;> rfl

lemma worldRequestRider_riders (w : World) (d : Driver) :
    ((worldRequestRider w d).2).riders = w.riders := by
  unfold worldRequestRider
  split <;> rfl

lemma riderRequest_do_riders (t : Nat) (rid : String) (w : World) :
    ((riderRequest_do t rid w).1).riders = w.riders := by
  unfold riderRequest_do
  split
  · rfl
  · rename_i r _
    dsimp only
    split
    · rename_i did w2 hD
      have hw2 : w2.riders = w.riders := by
        have h := worldRequestDriver_riders
          (notify w t RIDER REQUEST rid r.origin) r
        rw [hD] at h
        exact h
      split
      · exact hw2
      · exact hw2
    · rename_i w2 hD
      have hw2 : w2.riders = w.riders := by
        have h := worldRequestDriver_riders
          (notify w t RIDER REQUEST rid r.origin) r
        rw [hD] at h
        exact h
      exact hw2

lemma driverRequest_do_riders (t : Nat) (did : String) (w : World) :
    ((driverRequest_do t did w).1).riders = w.riders := by
  unfold driverRequest_do
  split
  · rfl
  · rename_i d _
    dsimp only
    split
    · rename_i rid w2 hD
      have hw2 : w2.riders = w.riders := by
        have h := worldRequestRider_riders
          (notify w t DRIVER REQUEST did d.location) d
        rw [hD] at h
        exact h
      split
      · exact hw2
      · exact hw2
    · rename_i w2 hD
      have hw2 : w2.riders = w.riders := by
        have h := worldRequestRider_riders
          (notify w t DRIVER REQUEST did d.location) d
        rw [hD] at h
        exact h
      exact hw2

lemma dropoff_do_riders (t : Nat) (rid did : String) (w : World) :
    ((dropoff_do t rid did w).1).riders = w.riders := by
  unfold dropoff_do
  split <;> rfl

/-! ## C7: return value of the `do` methods -/

/-- C7 (code-bug exhibit): four of the five event kinds return a list
of newly scheduled events from `do`, but `Cancellation.do` has no
`return` statement and returns Python `None` (modelled `none`) on every
input, contradicting `Event.do`'s documented contract
(`@rtype: list[Event]`). -/
theorem cancellation_do_returns_none (t : Nat) (rid did : String) (w : World) :
    (cancellation_do t rid w).2 = none
  ∧ (∃ l, (riderRequest_do t rid w).2 = some l)
  ∧ (∃ l, (driverRequest_do t did w).2 = some l)
  ∧ (∃ l, (pickup_do t rid did w).2 = some l)
  ∧ (∃ l, (dropoff_do t rid did w).2 = some l) := by
  refine ⟨?_, ?_, ?_, ?_, ?_⟩
  · unfold cancellation_do
    split
    · rfl
    · split <;> rfl
  · unfold riderRequest_do
    repeat' (first | split | dsimp only)
    all_goals exact ⟨_, rfl⟩
  · unfold driverRequest_do
    repeat' (first | split | dsimp only)
    all_goals exact ⟨_, rfl⟩
  · unfold pickup_do
    repeat' (first | split | dsimp only)
    all_goals exact ⟨_, rfl⟩
  · unfold dropoff_do
    repeat' (first | split | dsimp only)
    all_goals exact ⟨_, rfl⟩

/-! ## C2: the queue-membership invariant fails after a cancellation -/

/-- C2 (code-bug exhibit): rider "L" (patience 5) requests at `t = 0`
with no idle drivers, so they are enqueued in `waitRd` and a
`Cancellation` is scheduled for `t = 5`; executing it sets the rider's
status to cancelled but — since `Cancellation.do` never calls
`Dispatcher.cancel_ride` — leaves them inside the waiting-rider queue,
violating the invariant that `waitRd` holds exactly the riders whose
status is waiting. -/
theorem cancelled_rider_remains_in_wait_queue :
    (riderRequest_do 0 "L" w0).2 = some [Ev.cancellation 5 "L"]
  ∧ (cancellation_do 5 "L" (riderRequest_do 0 "L" w0).1).1.waitRd = ["L"]
  ∧ riderStatus (cancellation_do 5 "L" (riderRequest_do 0 "L" w0).1).1 "L" =
      some RStatus.cancelled := by
  decide

/-! ## C4: cancellation semantics and status stability -/

lemma riderStatus_setRider_ne (w : World) (rid rid' : String) (f : Rider → Rider)
    (hf : ∀ r, r.identifier = rid' → (f r).identifier = r.identifier)
    (he : rid ≠ rid') :
    riderStatus (setRider w rid' f) rid = riderStatus w rid := by
  rw [riderStatus, getRider_setRider w rid rid' f hf, if_neg he, riderStatus]

lemma riderStatus_setRider_self (w : World) (rid : String) (f : Rider → Rider)
    (hf : ∀ r, r.identifier = rid → (f r).identifier = r.identifier) :
    riderStatus (setRider w rid f) rid =
      ((getRider w rid).map f).map Rider.status := by
  rw [riderStatus, getRider_setRider w rid rid f hf, if_pos rfl]

/-- C4: executing a `Cancellation` sets the rider's status to cancelled
exactly when the status is still waiting; otherwise it changes nothing
beyond the notification log.  Moreover once a rider's status is not
waiting, executing any event leaves that status untouched. -/
theorem rider_status_stable (w : World) (t : Nat) (rid : String) :
    (riderStatus w rid = some RStatus.waiting →
      riderStatus (cancellation_do t rid w).1 rid = some RStatus.cancelled)
  ∧ (riderStatus w rid ≠ some RStatus.waiting →
      ((cancellation_do t rid w).1.riders = w.riders ∧
       (cancellation_do t rid w).1.drivers = w.drivers ∧
       (cancellation_do t rid w).1.availDr = w.availDr ∧
       (cancellation_do t rid w).1.waitRd = w.waitRd))
  ∧ (∀ e : Ev, riderStatus w rid ≠ some RStatus.waiting →
      riderStatus (execDo e w).1 rid = riderStatus w rid) := by
  refine ⟨?_, ?_, ?_⟩
  · intro h
    obtain ⟨r, hg, hst⟩ :
        ∃ r, getRider w rid = some r ∧ r.status = RStatus.waiting := by
      rw [riderStatus] at h
      cases hg : getRider w rid with
      | none => rw [hg] at h; cases h
      | some r =>
        rw [hg] at h
        exact ⟨r, rfl, by simpa using h⟩
    unfold cancellation_do
    rw [hg]
    dsimp only
    rw [if_pos hst]
    exact (riderStatus_setRider_self (notify w t RIDER CANCEL rid r.origin) rid
        (fun r0 => { r0 with status := RStatus.cancelled })
        (fun r0 _ => rfl)).trans (by simp [getRider_notify, hg])
  · intro h
    cases hg : getRider w rid with
    | none =>
      unfold cancellation_do
      rw [hg]
      exact ⟨rfl, rfl, rfl, rfl⟩
    | some r =>
      have hst : r.status ≠ RStatus.waiting := by
        intro hh
        exact h (by simp [riderStatus, hg, hh])
      unfold cancellation_do
      rw [hg]
      dsimp only
      rw [if_neg hst]
      exact ⟨rfl, rfl, rfl, rfl⟩
  · intro e h
    cases e with
    | riderRequest t' rid' =>
      exact riderStatus_eq_of_riders _ _ _ (riderRequest_do_riders t' rid' w)
    | driverRequest t' did' =>
      exact riderStatus_eq_of_riders _ _ _ (driverRequest_do_riders t' did' w)
    | dropoff t' rid' did' =>
      exact riderStatus_eq_of_riders _ _ _ (dropoff_do_riders t' rid' did' w)
    | cancellation t' rid' =>
      show riderStatus (cancellation_do t' rid' w).1 rid = riderStatus w rid
      unfold cancellation_do
      cases hg : getRider w rid' with
      | none => rfl
      | some r =>
        dsimp only
        by_cases hst : r.status = RStatus.waiting
        · rw [if_pos hst]
          by_cases he : rid = rid'
          · subst he
            exact absurd (by simp [riderStatus, hg, hst]) h
          · exact (riderStatus_setRider_ne
                (notify w t' RIDER CANCEL rid' r.origin) rid rid'
                (fun r0 => { r0 with status := RStatus.cancelled })
                (fun r0 _ => rfl) he).trans rfl
        · rw [if_neg hst]
          rfl
    | pickup t' rid' did' =>
      show riderStatus (pickup_do t' rid' did' w).1 rid = riderStatus w rid
      unfold pickup_do
      split
      · rename_i r d hgr hgd
        dsimp only
        by_cases hst : r.status = RStatus.waiting
        · rw [if_pos hst]
          by_cases he : rid = rid'
          · subst he
            exact absurd (by simp [riderStatus, hgr, hst]) h
          · have hid : r.identifier = rid' :=
              findBy_eq_ident Rider.identifier rid' r w.riders hgr
            have hf : ∀ r0 : Rider, r0.identifier = rid' →
                ((start_ride (end_drive d) r).2.1).identifier = r0.identifier :=
              fun r0 h0 => by
                show r.identifier = r0.identifier
                rw [hid, h0]
            exact (riderStatus_setRider_ne _ _ _ _ hf he).trans rfl
        · rw [if_neg hst]
          by_cases hc : r.status = RStatus.cancelled
          · rw [if_pos hc]
            rfl
          · rw [if_neg hc]
            rfl
      · rfl

/-- Witness for C4: the satisfied rider "R" is not waiting, so the
`Cancellation` at `t = 5` leaves their status unchanged (still
satisfied, not flipped to cancelled). -/
theorem rider_status_stable_witness :
    riderStatus wSat "R" ≠ some RStatus.waiting ∧
    riderStatus (execDo (Ev.cancellation 5 "R") wSat).1 "R" =
      riderStatus wSat "R" :=
  ⟨by decide, (rider_status_stable wSat 5 "R").2.2 (Ev.cancellation 5 "R")
     (by decide)⟩

/-! ## C3 and C10: the `Pickup` and `Dropoff` transitions -/

lemma getDriver_setDriver_self (w : World) (did : String) (f : Driver → Driver)
    (hf : ∀ d, d.identifier = did → (f d).identifier = d.identifier) :
    getDriver (setDriver w did f) did = (getDriver w did).map f := by
  rw [getDriver_setDriver w did did f hf, if_pos rfl]

lemma pickup_do_waiting (w : World) (t : Nat) (rid did : String)
    (r : Rider) (d : Driver)
    (hgr : getRider w rid = some r) (hgd : getDriver w did = some d)
    (hst : r.status = RStatus.waiting) :
    getDriver (pickup_do t rid did w).1 did =
      some { end_drive d with destination := some r.destination } ∧
    riderStatus (pickup_do t rid did w).1 rid = some RStatus.satisfied ∧
    (pickup_do t rid did w).2 =
      some [Ev.dropoff (t + get_travel_time (end_drive d) r.destination)
        rid did] := by
  unfold pickup_do
  rw [hgr, hgd]
  dsimp only
  rw [if_pos hst]
  have hidd : d.identifier = did :=
    findBy_eq_ident Driver.identifier did d w.drivers hgd
  have hidr : r.identifier = rid :=
    findBy_eq_ident Rider.identifier rid r w.riders hgr
  have hg2 : getDriver
      (notify (notify w t DRIVER PICKUP did (d.destination.getD d.location))
        t RIDER PICKUP rid r.origin) did = some d := hgd
  have hstep1 : getDriver
      (setDriver
        (notify (notify w t DRIVER PICKUP did (d.destination.getD d.location))
          t RIDER PICKUP rid r.origin) did (fun _ => end_drive d)) did =
      some (end_drive d) := by
    rw [getDriver_setDriver_self _ did (fun _ => end_drive d)
        (fun d0 h0 => by
          show d.identifier = d0.identifier
          rw [hidd, h0]), hg2]
    rfl
  have hstep2 : getDriver
      (setDriver
        (setDriver
          (notify (notify w t DRIVER PICKUP did (d.destination.getD d.location))
            t RIDER PICKUP rid r.origin) did (fun _ => end_drive d))
        did (fun _ => (start_ride (end_drive d) r).1)) did =
      some ((start_ride (end_drive d) r).1) := by
    rw [getDriver_setDriver_self _ did (fun _ => (start_ride (end_drive d) r).1)
        (fun d0 h0 => by
          show d.identifier = d0.identifier
          rw [hidd, h0]), hstep1]
    rfl
  have hgr4 : getRider
      (setDriver
        (setDriver
          (notify (notify w t DRIVER PICKUP did (d.destination.getD d.location))
            t RIDER PICKUP rid r.origin) did (fun _ => end_drive d))
        did (fun _ => (start_ride (end_drive d) r).1)) rid = some r := hgr
  refine ⟨hstep2, ?_, rfl⟩
  refine (riderStatus_setRider_self _ rid
      (fun _ => (start_ride (end_drive d) r).2.1)
      (fun r0 h0 => by
        show r.identifier = r0.identifier
        rw [hidr, h0])).trans ?_
  rw [hgr4]
  rfl

lemma pickup_do_cancelled (w : World) (t : Nat) (rid did : String)
    (r : Rider) (d : Driver)
    (hgr : getRider w rid = some r) (hgd : getDriver w did = some d)
    (hst : r.status = RStatus.cancelled) :
    getDriver (pickup_do t rid did w).1 did = some (end_drive d) ∧
    (pickup_do t rid did w).2 = some [Ev.driverRequest t did] := by
  unfold pickup_do
  rw [hgr, hgd]
  dsimp only
  have hns : r.status ≠ RStatus.waiting := by simp [hst]
  rw [if_neg hns, if_pos hst]
  have hidd : d.identifier = did :=
    findBy_eq_ident Driver.identifier did d w.drivers hgd
  have hg2 : getDriver
      (notify (notify w t DRIVER PICKUP did (d.destination.getD d.location))
        t RIDER PICKUP rid r.origin) did = some d := hgd
  refine ⟨?_, rfl⟩
  rw [getDriver_setDriver_self _ did (fun _ => end_drive d)
      (fun d0 h0 => by
        show d.identifier = d0.identifier
        rw [hidd, h0]), hg2]
  rfl

lemma pickup_do_satisfied (w : World) (t : Nat) (rid did : String)
    (r : Rider) (d : Driver)
    (hgr : getRider w rid = some r) (hgd : getDriver w did = some d)
    (hst : r.status = RStatus.satisfied) :
    getDriver (pickup_do t rid did w).1 did = some (end_drive d) ∧
    (pickup_do t rid did w).2 = some [] := by
  unfold pickup_do
  rw [hgr, hgd]
  dsimp only
  have hns : r.status ≠ RStatus.waiting := by simp [hst]
  have hnc : r.status ≠ RStatus.cancelled := by simp [hst]
  rw [if_neg hns, if_neg hnc]
  have hidd : d.identifier = did :=
    findBy_eq_ident Driver.identifier did d w.drivers hgd
  have hg2 : getDriver
      (notify (notify w t DRIVER PICKUP did (d.destination.getD d.location))
        t RIDER PICKUP rid r.origin) did = some d := hgd
  refine ⟨?_, rfl⟩
  rw [getDriver_setDriver_self _ did (fun _ => end_drive d)
      (fun d0 h0 => by
        show d.identifier = d0.identifier
        rw [hidd, h0]), hg2]
  rfl

lemma dropoff_do_obs (w : World) (t : Nat) (rid did : String) (d : Driver)
    (hgd : getDriver w did = some d) :
    getDriver (dropoff_do t rid did w).1 did = some (end_ride d) ∧
    (dropoff_do t rid did w).2 = some [Ev.driverRequest t did] := by
  unfold dropoff_do
  rw [hgd]
  dsimp only
  have hidd : d.identifier = did :=
    findBy_eq_ident Driver.identifier did d w.drivers hgd
  have hg1 : getDriver
      (notify w t DRIVER DROPOFF did (d.destination.getD d.location)) did =
      some d := hgd
  refine ⟨?_, rfl⟩
  rw [getDriver_setDriver_self _ did (fun _ => end_ride d)
      (fun d0 h0 => by
        show d.identifier = d0.identifier
        rw [hidd, h0]), hg1]
  rfl

/-- C3 (amended): executing a `Pickup` ends the driver's drive (the
driver ends up idle at the drive's destination); if the rider still
waits, exactly one `Dropoff` is emitted, at `t` plus the ride travel
time, and the rider becomes satisfied; if the rider cancelled, exactly
one `DriverRequest` is emitted at the same `t`; and whenever the
rider's status is not satisfied the emitted list is exactly one event,
a `Dropoff` or a `DriverRequest` (never both, never neither).  (On a
satisfied rider — unreachable in the event protocol — the source emits
nothing, which is why that case is excluded.) -/
theorem pickup_event_emissions (w : World) (t : Nat) (rid did : String)
    (r : Rider) (d : Driver) (L : Location)
    (hgr : getRider w rid = some r) (hgd : getDriver w did = some d)
    (hL : d.destination = some L) :
    (∃ d', getDriver (pickup_do t rid did w).1 did = some d' ∧
        d'.is_idle = true ∧ d'.location = L)
  ∧ (r.status = RStatus.waiting →
      (pickup_do t rid did w).2 =
        some [Ev.dropoff
          (t + rnd (manhattan_distance L r.destination) d.speed) rid did] ∧
      riderStatus (pickup_do t rid did w).1 rid = some RStatus.satisfied)
  ∧ (r.status = RStatus.cancelled →
      (pickup_do t rid did w).2 = some [Ev.driverRequest t did])
  ∧ (r.status ≠ RStatus.satisfied →
      ∃ e, (pickup_do t rid did w).2 = some [e] ∧
        ((∃ ts, e = Ev.dropoff ts rid did) ∨ e = Ev.driverRequest t did)) := by
  refine ⟨?_, ?_, ?_, ?_⟩
  · cases hrs : r.status with
    | waiting =>
      obtain ⟨h1, _, _⟩ := pickup_do_waiting w t rid did r d hgr hgd hrs
      exact ⟨_, h1, rfl, by simp [end_drive, hL]⟩
    | cancelled =>
      obtain ⟨h1, _⟩ := pickup_do_cancelled w t rid did r d hgr hgd hrs
      exact ⟨_, h1, rfl, by simp [end_drive, hL]⟩
    | satisfied =>
      obtain ⟨h1, _⟩ := pickup_do_satisfied w t rid did r d hgr hgd hrs
      exact ⟨_, h1, rfl, by simp [end_drive, hL]⟩
  · intro hst
    obtain ⟨_, h2, h3⟩ := pickup_do_waiting w t rid did r d hgr hgd hst
    refine ⟨?_, h2⟩
    rw [h3]
    simp [get_travel_time, end_drive, hL]
  · intro hst
    exact (pickup_do_cancelled w t rid did r d hgr hgd hst).2
  · intro hns
    cases hrs : r.status with
    | waiting =>
      obtain ⟨_, _, h3⟩ := pickup_do_waiting w t rid did r d hgr hgd hrs
      exact ⟨_, h3, Or.inl ⟨_, rfl⟩⟩
    | cancelled =>
      obtain ⟨_, h2⟩ := pickup_do_cancelled w t rid did r d hgr hgd hrs
      exact ⟨_, h2, Or.inr rfl⟩
    | satisfied => exact absurd hrs hns

/-- C3 counterexample: a `Pickup` executed on a rider whose status is
already satisfied emits no event at all — neither a `Dropoff` nor a
`DriverRequest` — refuting the unconditional "exactly one of the two,
never neither". -/
theorem pickup_satisfied_emits_nothing :
    riderStatus wSat "R" = some RStatus.satisfied ∧
    (pickup_do 4 "R" "D" wSat).2 = some [] := by decide

/-- Witness for C3 (amended) at a concrete waiting rider and a driver
en route to them. -/
theorem pickup_event_emissions_witness :
    getRider wWait "W" = some waitRider ∧
    getDriver wWait "D" = some enRoute ∧
    enRoute.destination = some ⟨0, 0⟩ ∧
    ((∃ d', getDriver (pickup_do 4 "W" "D" wWait).1 "D" = some d' ∧
        d'.is_idle = true ∧ d'.location = ⟨0, 0⟩)
    ∧ (waitRider.status = RStatus.waiting →
        (pickup_do 4 "W" "D" wWait).2 =
          some [Ev.dropoff
            (4 + rnd (manhattan_distance ⟨0, 0⟩ waitRider.destination)
              enRoute.speed) "W" "D"] ∧
        riderStatus (pickup_do 4 "W" "D" wWait).1 "W" =
          some RStatus.satisfied)
    ∧ (waitRider.status = RStatus.cancelled →
        (pickup_do 4 "W" "D" wWait).2 = some [Ev.driverRequest 4 "D"])
    ∧ (waitRider.status ≠ RStatus.satisfied →
        ∃ e, (pickup_do 4 "W" "D" wWait).2 = some [e] ∧
          ((∃ ts, e = Ev.dropoff ts "W" "D") ∨ e = Ev.driverRequest 4 "D"))) :=
  ⟨rfl, rfl, rfl,
   pickup_event_emissions wWait 4 "W" "D" waitRider enRoute ⟨0, 0⟩ rfl rfl rfl⟩

/-! ## C10: `start_ride` frame and driver idleness during a ride -/

/-- C10: `start_ride` changes only the driver's destination (and the
rider's status) — in particular `is_idle` is untouched; since
`Pickup.do` calls `end_drive` (which sets `is_idle` to true) before
`start_ride`, the driver reads as idle immediately after the pickup,
and still after the dropoff. -/
theorem start_ride_frame (d : Driver) (r : Rider) (w w2 : World)
    (t t2 : Nat) (rid did rid2 did2 : String)
    (r0 : Rider) (d0 d2 : Driver)
    (hr : getRider w rid = some r0) (hst : r0.status = RStatus.waiting)
    (hd : getDriver w did = some d0)
    (hd2 : getDriver w2 did2 = some d2) :
    ((start_ride d r).1.identifier = d.identifier ∧
     (start_ride d r).1.location = d.location ∧
     (start_ride d r).1.speed = d.speed ∧
     (start_ride d r).1.is_idle = d.is_idle ∧
     (start_ride d r).1.destination = some r.destination ∧
     (start_ride d r).2.1.status = RStatus.satisfied)
  ∧ (∃ d', getDriver (pickup_do t rid did w).1 did = some d' ∧
      d'.is_idle = true)
  ∧ (∃ d', getDriver (dropoff_do t2 rid2 did2 w2).1 did2 = some d' ∧
      d'.is_idle = true) := by
  refine ⟨⟨rfl, rfl, rfl, rfl, rfl, rfl⟩, ?_, ?_⟩
  · obtain ⟨h1, _, _⟩ := pickup_do_waiting w t rid did r0 d0 hr hd hst
    exact ⟨_, h1, rfl⟩
  · obtain ⟨h1, _⟩ := dropoff_do_obs w2 t2 rid2 did2 d2 hd2
    exact ⟨_, h1, rfl⟩

/-- Witness for C10 at the concrete waiting-rider pickup and a
concrete dropoff. -/
theorem start_ride_frame_witness :
    getRider wWait "W" = some waitRider ∧
    waitRider.status = RStatus.waiting ∧
    getDriver wWait "D" = some enRoute ∧
    getDriver wWait "D" = some enRoute ∧
    (((start_ride enRoute waitRider).1.identifier = enRoute.identifier ∧
      (start_ride enRoute waitRider).1.location = enRoute.location ∧
      (start_ride enRoute waitRider).1.speed = enRoute.speed ∧
      (start_ride enRoute waitRider).1.is_idle = enRoute.is_idle ∧
      (start_ride enRoute waitRider).1.destination =
        some waitRider.destination ∧
      (start_ride enRoute waitRider).2.1.status = RStatus.satisfied)
    ∧ (∃ d', getDriver (pickup_do 4 "W" "D" wWait).1 "D" = some d' ∧
        d'.is_idle = true)
    ∧ (∃ d', getDriver (dropoff_do 9 "W" "D" wWait).1 "D" = some d' ∧
        d'.is_idle = true)) :=
  ⟨rfl, rfl, rfl, rfl,
   start_ride_frame enRoute waitRider wWait wWait 4 9 "W" "D" "W" "D"
     waitRider enRoute enRoute rfl rfl rfl rfl⟩
